import Mathlib

/-!
Verification development for the tiny-py-interpreter evaluation engine.

The statement evaluator (`src/tinypy/AST/stmt.py`) is embedded shallowly:
each Python `eval` method becomes a Lean function over an explicit
interpreter state.  The process-wide mutable `runtime.Memory.CurrentNamespace`
pointer becomes an explicit `State` record threaded through evaluation; the
heap of `Namespace` objects (mutable, aliased) becomes a list indexed by
allocation order.  Python exceptions become `Except` results that still carry
the state at the point the exception was raised (a raised exception in the
original leaves the global namespace pointer at whatever value it had).
Evaluation is fuel-indexed: every recursive call consumes one unit of fuel,
so all functions are structurally recursive in the fuel argument and closed
evaluations reduce definitionally.
-/

namespace TinyPy

/-- Name contexts, from `AST.expr.Name.Context`: a name is evaluated either
to its bound value (Load) or to the bare identifier string (Store). -/
inductive Ctx where
  | load
  | store
deriving Repr, DecidableEq

/-- The ten binary operators appearing in `AugAssignStmt.opTable`
(`AddOp` … `RshiftOp` from `AST.expr`). -/
inductive BinOpKind where
  | add | sub | mult | div | mod
  | bitAnd | bitOr | bitXor | lshift | rshift
deriving Repr, DecidableEq

/-- Expression nodes used by the statement evaluator.  `constInt`/`constBool`
are literal nodes; `name` is `AST.expr.Name`; `binop` covers the arithmetic
and bitwise operator nodes; `call` is the call-expression node.  The
expression module itself is not part of the core source, so these observe
the contract of spec §4.2 (Modelled from the spec where noted below). -/
inductive Expr where
  | constInt (n : Int)
  | constBool (b : Bool)
  | name (id : String) (ctx : Ctx)
  | binop (op : BinOpKind) (left right : Expr)
  | call (callee : Expr) (args : List Expr)
deriving Repr

/-- Statement nodes of `src/tinypy/AST/stmt.py`.  `AugAssignStmt` is not a
constructor: in the source it is built, at construction time, as an ordinary
`AssignStmt` (see `augAssignStmt` below).  `WhileStmt.__init__` discards its
`orelse` argument, so `whileS` stores no orelse (see `whileStmt` below). -/
inductive Stmt where
  | assign (target value : Expr)
  | funcDef (name : String) (args : List String) (body : List Stmt)
  | ifS (test : Expr) (body orelse : List Stmt)
  | whileS (test : Expr) (body : List Stmt)
  | returnS (expr : Option Expr)
  | passS
  | continueS
  | breakS
deriving Repr

/-- The four variants of `ControlFlowMark.Type`. -/
inductive MarkTy where
  | ret | brk | cont | pass
deriving Repr, DecidableEq

/-- The result of evaluating one statement, mirroring the dynamic types the
Python `eval` methods return: `None` (assignments, function definitions),
a `ControlFlowMark` (with its `toEval` payload, kept unevaluated), or a
list of results (if/while).  List elements are themselves results that are
not lists (the source splices nested lists with `result += evalResult`). -/
inductive SRes where
  | pyNone
  | mark (t : MarkTy) (toEval : Option Expr)
  | list (xs : List SRes)
deriving Repr

/-- Runtime values.  `func` is the `container` closure written by
`FunctionDef.eval`: it captures the function's own namespace (`ns`) and the
namespace that was active at definition time (`defPrev`), which line 62 of
the source restores after the body loop.  `str` is what a store-context
`Name` evaluates to. -/
inductive Value where
  | none
  | int (n : Int)
  | bool (b : Bool)
  | str (s : String)
  | func (ns : Nat) (defPrev : Nat) (name : String)
      (params : List String) (body : List Stmt)
deriving Repr

/-- Modelled from the spec (§3 Namespace): a namespace is a mutable mapping
`bindings` from name to value plus an optional reference `outer` to an
enclosing namespace (`runtime.Memory.Namespace`, not under src/). -/
structure NsRec where
  bindings : List (String × Value)
  outer : Option Nat
deriving Repr

/-- The interpreter state: the heap of allocated namespaces (index =
allocation order) and the process-wide `runtime.Memory.CurrentNamespace`
pointer, here an index into `heap`. -/
structure State where
  heap : List NsRec
  current : Nat
deriving Repr

/-- Runtime errors (`runtime.Errors`, not under src/; taxonomy from spec §7).
`arity` carries function name, expected count and actual count, as the
`TypeError` message built at lines 45-47 of the source does.  `timeout`
is an artifact of fuel exhaustion, not a behavior of the program. -/
inductive Err where
  | unbound (name : String)
  | arity (fname : String) (expected got : Nat)
  | notCallable
  | badTarget
  | opError
  | timeout
deriving Repr

/-- The initial state: one global namespace, active. -/
def initState : State := { heap := [⟨[], Option.none⟩], current := 0 }

/-- Modelled from the spec (§4.1 `set`): insert or overwrite in the
namespace's own bindings only. -/
def setB : List (String × Value) → String → Value → List (String × Value)
  | [], n, v => [(n, v)]
  | (k, w) :: rest, n, v =>
      if k = n then (n, v) :: rest else (k, w) :: setB rest n v

/-- Association lookup in one namespace's own bindings. -/
def findB : List (String × Value) → String → Option Value
  | [], _ => Option.none
  | (k, w) :: rest, n => if k = n then some w else findB rest n

/-- Write `name ↦ v` into the own bindings of the namespace at heap index
`id` (the `Namespace.set` operation, spec §4.1: own bindings only,
`outer` untouched). -/
def setVar (st : State) (id : Nat) (name : String) (v : Value) : State :=
  { st with
    heap := st.heap.set id
      (let ns := st.heap.getD id ⟨[], Option.none⟩
       { ns with bindings := setB ns.bindings name v }) }

/-- Allocate a fresh namespace with the given outer scope; returns its index. -/
def allocNs (st : State) (outer : Option Nat) : Nat × State :=
  (st.heap.length, { st with heap := st.heap ++ [⟨[], outer⟩] })

/-- Modelled from the spec (§4.1 `lookup`): search own bindings, else
delegate to `outer`, failing when the chain is exhausted.  The chain in any
reachable state is shorter than the heap, so the fuel below never runs out
in practice. -/
def lookupChain : Nat → List NsRec → Nat → String → Option Value
  | 0, _, _, _ => Option.none
  | f + 1, heap, id, name =>
      let ns := heap.getD id ⟨[], Option.none⟩
      match findB ns.bindings name with
      | some v => some v
      | Option.none =>
        match ns.outer with
        | some o => lookupChain f heap o name
        | Option.none => Option.none

/-- Resolve a name against the active namespace (spec §4.2, load context). -/
def lookupVar (st : State) (name : String) : Option Value :=
  lookupChain (st.heap.length + 1) st.heap st.current name

/-- Coerce a value to the integer Python arithmetic and `==` use for it:
ints are themselves, bools count as 1/0 (Python's `bool` is an `int`
subclass, so `1 == True` holds at line 92 of the source). -/
def toIntQ : Value → Option Int
  | .int n => some n
  | .bool b => some (if b then 1 else 0)
  | _ => Option.none

/-- Python `==` restricted to the values of this core: numeric comparison
when both sides are numeric (so `int 1` equals `bool true`), structural
comparison on `none` and strings, `false` across kinds. -/
def pyEq (a b : Value) : Bool :=
  match toIntQ a, toIntQ b with
  | some x, some y => x == y
  | _, _ =>
    match a, b with
    | .none, .none => true
    | .str s, .str t => s == t
    | _, _ => false

/-- Modelled from the spec (§4.2): the numeric/bitwise binary operations of
the missing expression module.  Exact numeric corner cases are pass-through
from the host value model (spec §7) and are irrelevant to the claims; bitwise
operations are defined on non-negative operands. -/
def applyBin (op : BinOpKind) (a b : Value) : Except Err Value :=
  match toIntQ a, toIntQ b with
  | some x, some y =>
    match op with
    | .add => .ok (.int (x + y))
    | .sub => .ok (.int (x - y))
    | .mult => .ok (.int (x * y))
    | .div => if y = 0 then .error .opError else .ok (.int (x / y))
    | .mod => if y = 0 then .error .opError else .ok (.int (x % y))
    | .bitAnd =>
        if x < 0 ∨ y < 0 then .error .opError
        else .ok (.int (Int.ofNat (x.toNat &&& y.toNat)))
    | .bitOr =>
        if x < 0 ∨ y < 0 then .error .opError
        else .ok (.int (Int.ofNat (x.toNat ||| y.toNat)))
    | .bitXor =>
        if x < 0 ∨ y < 0 then .error .opError
        else .ok (.int (Int.ofNat (x.toNat ^^^ y.toNat)))
    | .lshift =>
        if x < 0 ∨ y < 0 then .error .opError
        else .ok (.int (Int.ofNat (x.toNat <<< y.toNat)))
    | .rshift =>
        if x < 0 ∨ y < 0 then .error .opError
        else .ok (.int (Int.ofNat (x.toNat >>> y.toNat)))
  | _, _ => .error .opError

/-- The accumulation step shared by `IfStmt.eval` and `WhileStmt.eval`:
`if type(evalResult) is list: result += evalResult else:
result.append(evalResult)`. -/
def appendRes (acc : List SRes) (r : SRes) : List SRes :=
  match r with
  | .list xs => acc ++ xs
  | _ => acc ++ [r]

/-- Outcome of one pass over a while body (the inner `for` loop of
`WhileStmt.eval`): either it ran to the end or was cut by Break/Continue
(`norm`, with the Python `shouldBreak` flag), or a Return mark must be
propagated out of the whole statement (`retMark`). -/
inductive WhileBodyOut where
  | norm (acc : List SRes) (shouldBreak : Bool)
  | retMark (toEval : Option Expr)
deriving Repr

mutual

/-- Expression evaluation.  `name`/`binop`/`call` shapes are Modelled from
the spec (§4.2, §4.4 steps as transcribed in `callFunc`): the expression
module is not under src/.  A call may mutate the state (it reassigns the
current-namespace pointer and writes bindings), hence the returned state. -/
def evalExpr : Nat → Expr → State → Except Err Value × State
  | 0, _, st => (.error .timeout, st)
  | f + 1, e, st =>
    match e with
    | .constInt n => (.ok (.int n), st)
    | .constBool b => (.ok (.bool b), st)
    | .name id ctx =>
      match ctx with
      | .store => (.ok (.str id), st)
      | .load =>
        match lookupVar st id with
        | some v => (.ok v, st)
        | Option.none => (.error (.unbound id), st)
    | .binop op l r =>
      match evalExpr f l st with
      | (.error err, st') => (.error err, st')
      | (.ok lv, st1) =>
        match evalExpr f r st1 with
        | (.error err, st') => (.error err, st')
        | (.ok rv, st2) =>
          match applyBin op lv rv with
          | .ok v => (.ok v, st2)
          | .error err => (.error err, st2)
    | .call callee args =>
      match evalExpr f callee st with
      | (.error err, st') => (.error err, st')
      | (.ok fv, st1) =>
        match evalArgs f args st1 with
        | (.error err, st') => (.error err, st')
        | (.ok argVals, st2) =>
          match fv with
          | .func ns defPrev name params body =>
              callFunc f ns defPrev name params body argVals st2
          | _ => (.error .notCallable, st2)

/-- Left-to-right evaluation of call arguments (spec §5 ordering). -/
def evalArgs : Nat → List Expr → State → Except Err (List Value) × State
  | 0, _, st => (.error .timeout, st)
  | _ + 1, [], st => (.ok [], st)
  | f + 1, e :: rest, st =>
    match evalExpr f e st with
    | (.error err, st') => (.error err, st')
    | (.ok v, st1) =>
      match evalArgs f rest st1 with
      | (.error err, st') => (.error err, st')
      | (.ok vs, st2) => (.ok (v :: vs), st2)

/-- The `container` closure of `FunctionDef.eval` (source lines 41-63):
install the captured namespace as current (line 42), check arity (lines
44-47, raising with the captured namespace still current), bind parameters
(lines 49-50), run the body collecting a return value (lines 52-60), restore
the definition-time previous namespace (line 62) and return the value.  The
restore at line 62 is NOT in a `finally`: an error raised by the arity check
or by body evaluation propagates without restoring. -/
def callFunc : Nat → Nat → Nat → String → List String → List Stmt →
    List Value → State → Except Err Value × State
  | 0, _, _, _, _, _, _, st => (.error .timeout, st)
  | f + 1, ns, defPrev, name, params, body, argVals, st =>
    let st1 : State := { st with current := ns }
    if argVals.length ≠ params.length then
      (.error (.arity name params.length argVals.length), st1)
    else
      let st2 := bindParams ns (params.zip argVals) st1
      match runFuncBody f body st2 with
      | (.error err, st') => (.error err, st')
      | (.ok v, st3) => (.ok v, { st3 with current := defPrev })

/-- Parameter binding, line 50 of the source: `namespace.set` for each
`zip(self.args, args)` pair.  Counted as fuel-free: it is a bounded loop. -/
def bindParams : Nat → List (String × Value) → State → State
  | _, [], st => st
  | ns, (n, v) :: rest, st => bindParams ns rest (setVar st ns n v)

/-- The body loop of `container` (source lines 52-60): statements run in
order; a Return mark evaluates its `toEval` payload (if any) in whatever
namespace is then current and stops; every other result — including Break,
Continue and Pass marks — is silently dropped and the loop continues;
falling off the end yields Python `None`. -/
def runFuncBody : Nat → List Stmt → State → Except Err Value × State
  | 0, _, st => (.error .timeout, st)
  | _ + 1, [], st => (.ok .none, st)
  | f + 1, s :: rest, st =>
    match evalStmt f s st with
    | (.error err, st') => (.error err, st')
    | (.ok r, st1) =>
      match r with
      | .mark .ret toEval =>
        match toEval with
        | Option.none => (.ok .none, st1)
        | some e =>
          match evalExpr f e st1 with
          | (.error err, st') => (.error err, st')
          | (.ok v, st2) => (.ok v, st2)
      | _ => runFuncBody f rest st1

/-- Statement evaluation, one case per `eval` method of
`src/tinypy/AST/stmt.py`. -/
def evalStmt : Nat → Stmt → State → Except Err SRes × State
  | 0, _, st => (.error .timeout, st)
  | f + 1, s, st =>
    match s with
    | .assign target value =>
      match evalExpr f target st with
      | (.error err, st') => (.error err, st')
      | (.ok lv, st1) =>
        match evalExpr f value st1 with
        | (.error err, st') => (.error err, st')
        | (.ok rv, st2) =>
          match lv with
          | .str n => (.ok .pyNone, setVar st2 st2.current n rv)
          | _ => (.error .badTarget, st2)
    | .funcDef name args body =>
      let prev := st.current
      let (nsId, st1) := allocNs st (some prev)
      (.ok .pyNone, setVar st1 prev name (.func nsId prev name args body))
    | .ifS test body orelse =>
      match evalExpr f test st with
      | (.error err, st') => (.error err, st')
      | (.ok tv, st1) =>
          evalBlock f (if pyEq tv (.bool true) then body else orelse) [] st1
    | .whileS test body => runWhile f test body [] st
    | .returnS e => (.ok (.mark .ret e), st)
    | .passS => (.ok (.mark .pass Option.none), st)
    | .continueS => (.ok (.mark .cont Option.none), st)
    | .breakS => (.ok (.mark .brk Option.none), st)

/-- The accumulation loop of `IfStmt.eval` (source lines 92-104): a mark
whose type is not Pass is returned immediately; every other result —
including a Pass mark, for which the `isinstance` branch falls through —
is appended via `appendRes` and iteration continues. -/
def evalBlock : Nat → List Stmt → List SRes → State → Except Err SRes × State
  | 0, _, _, st => (.error .timeout, st)
  | _ + 1, [], acc, st => (.ok (.list acc), st)
  | f + 1, s :: rest, acc, st =>
    match evalStmt f s st with
    | (.error err, st') => (.error err, st')
    | (.ok r, st1) =>
      match r with
      | .mark t toEval =>
        if t = .pass then evalBlock f rest (appendRes acc (.mark t toEval)) st1
        else (.ok (.mark t toEval), st1)
      | _ => evalBlock f rest (appendRes acc r) st1

/-- The outer loop of `WhileStmt.eval` (source lines 120-146): re-evaluate
the test, run the body, and either return a propagated Return mark, stop on
`shouldBreak`, or iterate.  The accumulated result list survives across
iterations (`result` is initialized once, before the `while`). -/
def runWhile : Nat → Expr → List Stmt → List SRes → State →
    Except Err SRes × State
  | 0, _, _, _, st => (.error .timeout, st)
  | f + 1, test, body, acc, st =>
    match evalExpr f test st with
    | (.error err, st') => (.error err, st')
    | (.ok tv, st1) =>
      if pyEq tv (.bool true) then
        match runWhileBody f body acc st1 with
        | (.error err, st') => (.error err, st')
        | (.ok (.retMark e), st2) => (.ok (.mark .ret e), st2)
        | (.ok (.norm acc' shouldBreak), st2) =>
          if shouldBreak then (.ok (.list acc'), st2)
          else runWhile f test body acc' st2
      else (.ok (.list acc), st1)

/-- The inner `for` loop of `WhileStmt.eval` (source lines 125-142): Break
sets `shouldBreak` and stops without appending; Continue stops without
appending; a Return mark is propagated; a Pass mark falls through to the
append, exactly as in the source (`pass` then the append); everything else
is appended and iteration continues. -/
def runWhileBody : Nat → List Stmt → List SRes → State →
    Except Err WhileBodyOut × State
  | 0, _, _, st => (.error .timeout, st)
  | _ + 1, [], acc, st => (.ok (.norm acc false), st)
  | f + 1, s :: rest, acc, st =>
    match evalStmt f s st with
    | (.error err, st') => (.error err, st')
    | (.ok r, st1) =>
      match r with
      | .mark .brk _ => (.ok (.norm acc true), st1)
      | .mark .cont _ => (.ok (.norm acc false), st1)
      | .mark .ret e => (.ok (.retMark e), st1)
      | _ => runWhileBody f rest (appendRes acc r) st1

end

/-- The `AugAssignStmt.__init__` constructor (source lines 183-188): at
construction time the augmented assignment is rewritten into an ordinary
`AssignStmt` whose target is a store-context `Name` and whose value is the
table-selected binary operation applied to a load-context `Name` and the
right-hand side.  `opTable` lookup fails (Python `KeyError`) on an unknown
operator, hence the `Option`. -/
def opTable : String → Option BinOpKind
  | "+=" => some .add
  | "-=" => some .sub
  | "*=" => some .mult
  | "/=" => some .div
  | "%=" => some .mod
  | "&=" => some .bitAnd
  | "|=" => some .bitOr
  | "^=" => some .bitXor
  | "<<=" => some .lshift
  | ">>=" => some .rshift
  | _ => Option.none

/-- `AugAssignStmt(name, value, op)` as the node it constructs. -/
def augAssignStmt (name : String) (value : Expr) (op : String) :
    Option Stmt :=
  (opTable op).map fun k =>
    Stmt.assign (.name name .store) (.binop k (.name name .load) value)

/-- The `WhileStmt.__init__` constructor (source lines 115-118): it receives
`test`, `body` and `orelse` but stores only `test` and `body`; the `orelse`
argument is discarded. -/
def whileStmt (test : Expr) (body : List Stmt) (_orelse : List Stmt) : Stmt :=
  Stmt.whileS test body

/-- Run a list of top-level statements in order (the program driver). -/
def runProgram : Nat → List Stmt → State → Except Err Unit × State
  | 0, _, st => (.error .timeout, st)
  | _ + 1, [], st => (.ok (), st)
  | f + 1, s :: rest, st =>
    match evalStmt f s st with
    | (.error err, st') => (.error err, st')
    | (.ok _, st1) => runProgram f rest st1


/-! ## Helper lemmas -/

lemma nsGet_set_self (l : List NsRec) (i : Nat) (a : NsRec) :
    (l.set i a)[i]? = l[i]?.map fun _ => a := by
  induction l generalizing i with
  | nil => simp
  | cons x xs ih =>
    cases i with
    | zero => simp
    | succ j => simpa using ih j

lemma nsGet_set_other (l : List NsRec) (i j : Nat) (a : NsRec) (h : i ≠ j) :
    (l.set i a)[j]? = l[j]? := by
  induction l generalizing i j with
  | nil => simp
  | cons x xs ih =>
    cases i with
    | zero => cases j with
      | zero => exact absurd rfl h
      | succ k => simp
    | succ i' => cases j with
      | zero => simp
      | succ k => simpa using ih i' k (by omega)

lemma nsGetD_eq_get? (l : List NsRec) (i : Nat) (d : NsRec) :
    l.getD i d = l[i]?.getD d := by
  simp [List.getD]

/-- Shape of a successful while evaluation: the outer loop of
`WhileStmt.eval` only ever returns a result list or a propagated Return
mark. -/
lemma runWhile_ok_shape (f : Nat) : ∀ (test : Expr) (body : List Stmt)
    (acc : List SRes) (st : State) (r : SRes) (st' : State),
    runWhile f test body acc st = (.ok r, st') →
    (∃ xs, r = .list xs) ∨ (∃ e, r = .mark .ret e) := by
  induction f with
  | zero =>
    intro test body acc st r st' h
    simp [runWhile] at h
  | succ f ih =>
    intro test body acc st r st' h
    simp only [runWhile] at h
    split at h
    · simp at h
    · split at h
      · split at h
        · simp at h
        · right
          simp only [Prod.mk.injEq, Except.ok.injEq] at h
          exact ⟨_, h.1.symm⟩
        · split at h
          · left
            simp only [Prod.mk.injEq, Except.ok.injEq] at h
            exact ⟨_, h.1.symm⟩
          · exact ih _ _ _ _ _ _ h
      · left
        simp only [Prod.mk.injEq, Except.ok.injEq] at h
        exact ⟨_, h.1.symm⟩

/-! ## Concrete programs used by individual claims -/

/-- `def counter(): n = n + 1; return n` -/
def counterDef : Stmt :=
  .funcDef "counter" []
    [ .assign (.name "n" .store) (.binop .add (.name "n" .load) (.constInt 1)),
      .returnS (some (.name "n" .load)) ]

/-- A call `counter()`. -/
def counterCall : Expr := .call (.name "counter" .load) []

/-- State after evaluating the definition of `counter` at top level. -/
def c2st0 : State := (evalStmt 30 counterDef initState).2

/-- Same, with the captured namespace (heap index 1) pre-seeded `n = 0`. -/
def c2st1 : State := setVar c2st0 1 "n" (.int 0)

/-- `if 1: x = 5 else: x = 6` -/
def c9prog : Stmt :=
  .ifS (.constInt 1)
    [.assign (.name "x" .store) (.constInt 5)]
    [.assign (.name "x" .store) (.constInt 6)]

/-! ## Claims -/

/-- C2: the function's namespace is created exactly once, when the
FunctionDef statement is evaluated — evaluating a definition appends exactly
one namespace to the heap and writes the callable (capturing that one
namespace) into the defining namespace — and all invocations share that
captured namespace: with it pre-seeded `n = 0`, two successive calls of
`counter` (body `n = n + 1; return n`) return 1 and then 2, and no new
namespace is allocated by either call. -/
theorem C2_shared_namespace_counter :
    (∀ (f : Nat) (name : String) (args : List String) (body : List Stmt)
        (st : State),
      evalStmt (f + 1) (.funcDef name args body) st =
        (.ok .pyNone,
         setVar { st with heap := st.heap ++ [⟨[], some st.current⟩] }
           st.current name (.func st.heap.length st.current name args body)) ∧
      ((evalStmt (f + 1) (.funcDef name args body) st).2).heap.length =
        st.heap.length + 1) ∧
    (evalExpr 30 counterCall c2st1).1 = .ok (.int 1) ∧
    (evalExpr 30 counterCall (evalExpr 30 counterCall c2st1).2).1 =
      .ok (.int 2) ∧
    c2st1.heap.length = 2 ∧
    ((evalExpr 30 counterCall (evalExpr 30 counterCall c2st1).2).2).heap.length
      = 2 := by
  refine ⟨fun f name args body st => ⟨rfl, ?_⟩, rfl, rfl, rfl, rfl⟩
  simp [evalStmt, setVar, allocNs]

/-- C4: calling a callable of `N` parameters with `M ≠ N` arguments fails
with an arity error carrying the function name, expected count and actual
count; the heap — hence every binding — is untouched (no parameter bound,
no body statement run), only the current-namespace pointer has been moved
to the callee's namespace (source line 42 precedes the check). -/
theorem C4_arity_error (f ns defPrev : Nat) (name : String)
    (params : List String) (body : List Stmt) (argVals : List Value)
    (st : State) (h : argVals.length ≠ params.length) :
    callFunc (f + 1) ns defPrev name params body argVals st =
      (.error (.arity name params.length argVals.length),
       { st with current := ns }) ∧
    ({ st with current := ns } : State).heap = st.heap := by
  refine ⟨?_, rfl⟩
  simp [callFunc, h]

/-- Witness for C4: `f(a)` called with zero arguments. -/
theorem C4_arity_error_witness :
    callFunc 1 1 0 "f" ["a"] [] [] initState =
      (.error (.arity "f" 1 0), { initState with current := 1 }) ∧
    ({ initState with current := 1 } : State).heap = initState.heap :=
  C4_arity_error 0 1 0 "f" ["a"] [] [] initState (by decide)

/-- C9: for the program `if 1: x = 5 else: x = 6`, after evaluation `x`
equals 5; the test result is compared against boolean true with Python
`==` (line 92 of the source), under which `1 == True` holds. -/
theorem C9_if_one_true :
    pyEq (.int 1) (.bool true) = true ∧
    lookupVar (evalStmt 20 c9prog initState).2 "x" = some (.int 5) :=
  ⟨rfl, rfl⟩

/-- C10: the `orelse` argument of the while-statement constructor is
discarded at construction time, so evaluation of a while statement is
identical for any two orelse clauses — statements in a while's orelse are
never evaluated, however the loop terminates. -/
theorem C10_while_orelse_discarded (test : Expr) (body o1 o2 : List Stmt) :
    whileStmt test body o1 = whileStmt test body o2 ∧
    ∀ (f : Nat) (st : State),
      evalStmt f (whileStmt test body o1) st =
        evalStmt f (whileStmt test body o2) st :=
  ⟨rfl, fun _ _ => rfl⟩


/-! ## C1 -/

/-- State after `def f(a): pass` at top level (heap: global, f's namespace). -/
def c1ArityState : State := (evalStmt 30 (.funcDef "f" ["a"] []) initState).2

/-- State after `def f(): pass` and `def g(): pass` at top level, with g's
namespace (heap index 2) made current — the situation of evaluation running
inside g's body. -/
def c1NestSt : State :=
  { (runProgram 30 [.funcDef "f" [] [], .funcDef "g" [] []] initState).2
    with current := 2 }

/-- C1 counterexample: (a) a call of `f` (one parameter) with zero arguments
fails the arity check and leaves the callee's namespace (index 1) active,
not the global namespace (index 0) that was active immediately before the
call; (b) a successful zero-argument call of top-level `f` made while g's
namespace (index 2) is active restores the namespace active at f's
*definition* (index 0), not the pre-call value 2. -/
theorem C1_counterexample :
    c1ArityState.current = 0 ∧
    (evalExpr 30 (.call (.name "f" .load) []) c1ArityState).1 =
      .error (.arity "f" 1 0) ∧
    ((evalExpr 30 (.call (.name "f" .load) []) c1ArityState).2).current = 1 ∧
    c1NestSt.current = 2 ∧
    (evalExpr 30 (.call (.name "f" .load) []) c1NestSt).1 = .ok .none ∧
    ((evalExpr 30 (.call (.name "f" .load) []) c1NestSt).2).current = 0 :=
  ⟨rfl, rfl, rfl, rfl, rfl, rfl⟩

/-- C1 (amended): a call that completes — normally or via a Return signal —
always sets the active-namespace pointer to the namespace that was active
at the function's definition (which coincides with the pre-call value only
when the call is made from the definition scope); a call that fails the
arity check performs no restore, leaving the callee's captured namespace
active; and a call whose body evaluation raises an error propagates that
error with no restore, leaving active exactly the namespace that body
evaluation last installed — the callee's captured namespace unless a nested
completed call moved the pointer to that function's definition scope. -/
theorem C1_restore_behavior (f ns defPrev : Nat) (name : String)
    (params : List String) (body : List Stmt) (argVals : List Value)
    (st : State) :
    (∀ (v : Value) (st' : State),
      callFunc f ns defPrev name params body argVals st = (.ok v, st') →
      st'.current = defPrev) ∧
    (argVals.length ≠ params.length →
      callFunc (f + 1) ns defPrev name params body argVals st =
        (.error (.arity name params.length argVals.length),
         { st with current := ns })) ∧
    (∀ (e : Err) (st' : State), argVals.length = params.length →
      runFuncBody f body
          (bindParams ns (params.zip argVals) { st with current := ns }) =
        (.error e, st') →
      callFunc (f + 1) ns defPrev name params body argVals st =
        (.error e, st')) := by
  refine ⟨?_, ?_, ?_⟩
  · intro v st' h
    cases f with
    | zero => simp [callFunc] at h
    | succ f =>
      simp only [callFunc] at h
      split at h
      · simp at h
      · split at h
        · simp at h
        · simp only [Prod.mk.injEq, Except.ok.injEq] at h
          rw [← h.2]
  · intro hne
    simp [callFunc, hne]
  · intro e st' hlen hbody
    simp [callFunc, hlen, hbody]

/-- Witness for C1 (amended): a concrete completing call restores the
definition-time namespace; a concrete arity failure leaves the callee
namespace active; a concrete unbound-name error raised during body
evaluation escapes with the callee namespace still active. -/
theorem C1_restore_behavior_witness :
    (({ heap := initState.heap, current := 0 } : State).current = 0) ∧
    callFunc 1 1 0 "g" ["a"] [] [] initState =
      (.error (.arity "g" 1 0), { initState with current := 1 }) ∧
    callFunc 4 1 0 "f" [] [.assign (.name "x" .store) (.name "q" .load)] []
        c1ArityState =
      (.error (.unbound "q"), { heap := c1ArityState.heap, current := 1 }) :=
  ⟨(C1_restore_behavior 2 1 0 "g" [] [] [] initState).1 Value.none
      { heap := initState.heap, current := 0 } rfl,
   (C1_restore_behavior 0 1 0 "g" ["a"] [] [] initState).2.1 (by decide),
   (C1_restore_behavior 3 1 0 "f" []
      [.assign (.name "x" .store) (.name "q" .load)] [] c1ArityState).2.2
      (.unbound "q") { heap := c1ArityState.heap, current := 1 } rfl rfl⟩

/-! ## C3 -/

/-- C3: (1) a successful while evaluation never results in a Break or
Continue signal — the result is either a result list or a Return signal;
(2) a body statement producing a Return signal makes the body pass run end
immediately with that signal, independently of the remaining statements;
(3) the loop then propagates the Return signal as the result of the whole
while statement without running any further iteration. -/
theorem C3_while_signal_containment :
    (∀ (f : Nat) (test : Expr) (body : List Stmt) (st : State) (r : SRes)
        (st' : State),
      evalStmt f (.whileS test body) st = (.ok r, st') →
      ((∀ e, r ≠ .mark .brk e ∧ r ≠ .mark .cont e) ∧
       ((∃ xs, r = .list xs) ∨ (∃ e, r = .mark .ret e)))) ∧
    (∀ (f : Nat) (s : Stmt) (rest : List Stmt) (acc : List SRes) (st : State)
        (e : Option Expr) (st1 : State),
      evalStmt f s st = (.ok (.mark .ret e), st1) →
      runWhileBody (f + 1) (s :: rest) acc st = (.ok (.retMark e), st1)) ∧
    (∀ (f : Nat) (test : Expr) (body : List Stmt) (acc : List SRes)
        (st st1 : State) (tv : Value) (e : Option Expr) (st2 : State),
      evalExpr f test st = (.ok tv, st1) → pyEq tv (.bool true) = true →
      runWhileBody f body acc st1 = (.ok (.retMark e), st2) →
      runWhile (f + 1) test body acc st = (.ok (.mark .ret e), st2)) := by
  refine ⟨?_, ?_, ?_⟩
  · intro f test body st r st' h
    cases f with
    | zero => simp [evalStmt] at h
    | succ f =>
      have hr := runWhile_ok_shape f test body [] st r st' h
      refine ⟨?_, hr⟩
      intro e
      rcases hr with ⟨xs, rfl⟩ | ⟨e', rfl⟩ <;> exact ⟨by simp, by simp⟩
  · intro f s rest acc st e st1 h
    simp [runWhileBody, h]
  · intro f test body acc st st1 tv e st2 h1 h2 h3
    simp [runWhile, h1, h2, h3]

/-- Witness for C3: `while True: return 5` evaluates to the Return signal
(never Break/Continue); concrete instantiations of the propagation parts. -/
theorem C3_while_signal_containment_witness :
    ((∀ e, (SRes.mark .ret (some (.constInt 5))) ≠ .mark .brk e ∧
           (SRes.mark .ret (some (.constInt 5))) ≠ .mark .cont e) ∧
     ((∃ xs, (SRes.mark .ret (some (.constInt 5))) = .list xs) ∨
      (∃ e, (SRes.mark .ret (some (.constInt 5))) = SRes.mark .ret e))) ∧
    runWhileBody 2 [.returnS (some (.constInt 5))] [] initState =
      (.ok (.retMark (some (.constInt 5))), initState) ∧
    runWhile 3 (.constBool true) [.returnS (some (.constInt 5))] []
        initState =
      (.ok (.mark .ret (some (.constInt 5))), initState) :=
  ⟨C3_while_signal_containment.1 20 (.constBool true)
      [.returnS (some (.constInt 5))] initState
      (.mark .ret (some (.constInt 5))) initState rfl,
   C3_while_signal_containment.2.1 1 (.returnS (some (.constInt 5))) [] []
      initState (some (.constInt 5)) initState rfl,
   C3_while_signal_containment.2.2 2 (.constBool true)
      [.returnS (some (.constInt 5))] [] initState initState (.bool true)
      (some (.constInt 5)) initState rfl rfl rfl⟩


/-! ## C5 -/

/-- C5 counterexample: for `if True: pass`, the Pass signal is not swallowed
— it is appended to the result sequence, which is therefore not the empty
sequence of non-signal results the claim describes. -/
theorem C5_counterexample :
    evalStmt 20 (.ifS (.constBool true) [.passS] []) initState =
      (.ok (.list [.mark .pass Option.none]), initState) ∧
    (SRes.list [.mark .pass Option.none] ≠ .list []) :=
  ⟨rfl, by simp⟩

/-- C5 (amended): the if evaluator evaluates the test and iterates the body
if it compares equal to boolean true, the orelse otherwise; for each
statement of the chosen branch a signal whose type is not Pass stops
iteration and is returned immediately as the statement's result; a Pass
signal does not stop iteration and is appended to the ordered result
sequence just like a non-signal result; non-signal results are accumulated
(lists spliced, other results appended); an exhausted branch yields the
accumulated sequence. -/
theorem C5_if_iteration :
    (∀ (f : Nat) (test : Expr) (body orelse : List Stmt) (st : State)
        (tv : Value) (st1 : State),
      evalExpr f test st = (.ok tv, st1) →
      evalStmt (f + 1) (.ifS test body orelse) st =
        evalBlock f (if pyEq tv (.bool true) then body else orelse) [] st1) ∧
    (∀ (f : Nat) (s : Stmt) (rest : List Stmt) (acc : List SRes) (st : State)
        (t : MarkTy) (e : Option Expr) (st1 : State),
      evalStmt f s st = (.ok (.mark t e), st1) → t ≠ .pass →
      evalBlock (f + 1) (s :: rest) acc st = (.ok (.mark t e), st1)) ∧
    (∀ (f : Nat) (s : Stmt) (rest : List Stmt) (acc : List SRes) (st : State)
        (e : Option Expr) (st1 : State),
      evalStmt f s st = (.ok (.mark .pass e), st1) →
      evalBlock (f + 1) (s :: rest) acc st =
        evalBlock f rest (acc ++ [.mark .pass e]) st1) ∧
    (∀ (f : Nat) (s : Stmt) (rest : List Stmt) (acc : List SRes) (st : State)
        (r : SRes) (st1 : State),
      evalStmt f s st = (.ok r, st1) → (∀ t e, r ≠ .mark t e) →
      evalBlock (f + 1) (s :: rest) acc st =
        evalBlock f rest (appendRes acc r) st1) ∧
    (∀ (f : Nat) (acc : List SRes) (st : State),
      evalBlock (f + 1) [] acc st = (.ok (.list acc), st)) := by
  refine ⟨?_, ?_, ?_, ?_, fun f acc st => rfl⟩
  · intro f test body orelse st tv st1 h
    simp [evalStmt, h]
  · intro f s rest acc st t e st1 h ht
    simp [evalBlock, h, ht]
  · intro f s rest acc st e st1 h
    simp [evalBlock, h, appendRes]
  · intro f s rest acc st r st1 h hr
    cases r with
    | mark t e => exact absurd rfl (hr t e)
    | pyNone => simp [evalBlock, h]
    | list xs => simp [evalBlock, h]

/-- Witness for C5 (amended): concrete instantiations — a Pass statement is
appended and iteration continues; a Break statement is returned immediately;
branch selection on `if 1`. -/
theorem C5_if_iteration_witness :
    evalBlock 2 [.passS] [] initState =
      evalBlock 1 [] ([] ++ [.mark .pass Option.none]) initState ∧
    evalBlock 2 [.breakS] [] initState =
      (.ok (.mark .brk Option.none), initState) ∧
    evalStmt 2 (.ifS (.constInt 1) [] []) initState =
      evalBlock 1 (if pyEq (.int 1) (.bool true) then [] else ([] : List Stmt))
        [] initState :=
  ⟨C5_if_iteration.2.2.1 1 .passS [] [] initState Option.none initState rfl,
   C5_if_iteration.2.1 1 .breakS [] [] initState .brk Option.none initState
     rfl (by decide),
   C5_if_iteration.1 1 (.constInt 1) [] [] initState (.int 1) initState rfl⟩

/-! ## C6 -/

/-- Top level: `n = 99; def f(): return 0; def g(): n = 7; m = f(); return n`.
The namespace of g (heap index 2) gets its own `n = 7`; the call `f()`
inside g restores f's definition-time namespace (the global one), so the
expression carried by g's `return n` is evaluated against the global
namespace, not g's. -/
def c6prog : List Stmt :=
  [ .assign (.name "n" .store) (.constInt 99),
    .funcDef "f" [] [.returnS (some (.constInt 0))],
    .funcDef "g" []
      [ .assign (.name "n" .store) (.constInt 7),
        .assign (.name "m" .store) (.call (.name "f" .load) []),
        .returnS (some (.name "n" .load)) ] ]

/-- State after running `c6prog`. -/
def c6st : State := (runProgram 40 c6prog initState).2

/-- The call `g()`. -/
def c6call : Expr := .call (.name "g" .load) []

/-- C6 counterexample: calling `g` returns 99 (the global `n`), even though
the callee namespace's own binding of `n` is 7 at the moment the Return
signal's expression is evaluated — the carried expression is *not* evaluated
in the callee namespace. -/
theorem C6_counterexample :
    (evalExpr 40 c6call c6st).1 = .ok (.int 99) ∧
    findB (((evalExpr 40 c6call c6st).2).heap.getD 2
        ⟨[], Option.none⟩).bindings "n" = some (.int 7) ∧
    (Except.ok (Value.int 99) : Except Err Value) ≠ .ok (.int 7) :=
  ⟨rfl, rfl, by simp⟩

/-- C6 (amended): a return statement produces a Return signal immediately,
its expression unevaluated and the state untouched; when the function-call
body loop encounters that signal it evaluates the carried expression (if
any) in whatever namespace is active at that point — normally the callee's
captured namespace, but possibly another one if a nested call switched the
active namespace — to obtain the call's value, stopping the body; with no
carried expression, or with no Return encountered at all, the call returns
none (every non-Return result — values as well as Break/Continue/Pass
signals — is dropped and the body loop continues). -/
theorem C6_return_evaluation :
    (∀ (f : Nat) (e : Option Expr) (st : State),
      evalStmt (f + 1) (.returnS e) st = (.ok (.mark .ret e), st)) ∧
    (∀ (f : Nat) (s : Stmt) (rest : List Stmt) (st : State) (e : Expr)
        (st1 : State),
      evalStmt f s st = (.ok (.mark .ret (some e)), st1) →
      runFuncBody (f + 1) (s :: rest) st = evalExpr f e st1) ∧
    (∀ (f : Nat) (s : Stmt) (rest : List Stmt) (st st1 : State),
      evalStmt f s st = (.ok (.mark .ret Option.none), st1) →
      runFuncBody (f + 1) (s :: rest) st = (.ok .none, st1)) ∧
    (∀ (f : Nat) (st : State), runFuncBody (f + 1) [] st = (.ok .none, st)) ∧
    (∀ (f : Nat) (s : Stmt) (rest : List Stmt) (st : State) (r : SRes)
        (st1 : State),
      evalStmt f s st = (.ok r, st1) → (∀ e, r ≠ .mark .ret e) →
      runFuncBody (f + 1) (s :: rest) st = runFuncBody f rest st1) := by
  refine ⟨fun f e st => rfl, ?_, ?_, fun f st => rfl, ?_⟩
  · intro f s rest st e st1 h
    simp only [runFuncBody, h]
    rcases hE : evalExpr f e st1 with ⟨res, st2⟩
    cases res <;> simp
  · intro f s rest st st1 h
    simp [runFuncBody, h]
  · intro f s rest st r st1 h hr
    cases r with
    | pyNone => simp [runFuncBody, h]
    | list xs => simp [runFuncBody, h]
    | mark t e =>
      cases t with
      | ret => exact absurd rfl (hr e)
      | brk => simp [runFuncBody, h]
      | cont => simp [runFuncBody, h]
      | pass => simp [runFuncBody, h]

/-- Witness for C6 (amended): concrete return statements inside a function
body, and a Pass statement whose result is dropped while the body loop
continues past it. -/
theorem C6_return_evaluation_witness :
    runFuncBody 2 [.returnS (some (.constInt 3))] initState =
      evalExpr 1 (.constInt 3) initState ∧
    runFuncBody 2 [.returnS Option.none] initState =
      (.ok .none, initState) ∧
    runFuncBody 2 [.passS, .returnS Option.none] initState =
      runFuncBody 1 [.returnS Option.none] initState :=
  ⟨C6_return_evaluation.2.1 1 (.returnS (some (.constInt 3))) [] initState
      (.constInt 3) initState rfl,
   C6_return_evaluation.2.2.1 1 (.returnS Option.none) [] initState initState
      rfl,
   C6_return_evaluation.2.2.2.2 1 .passS [.returnS Option.none] initState
      (.mark .pass Option.none) initState rfl (by simp)⟩

/-! ## C7 -/

/-- C7: for every operator of the table, the augmented-assignment
constructor produces, at construction time, exactly the plain assignment
whose target is a store-context Name and whose value is the corresponding
binary operation of a load-context Name and the right-hand side — so its
evaluation is identical, in scoping and side effects, to that plain
assignment. -/
theorem C7_augassign_desugars (op : String) (k : BinOpKind) (name : String)
    (value : Expr) (h : opTable op = some k) :
    augAssignStmt name value op =
      some (.assign (.name name .store)
        (.binop k (.name name .load) value)) ∧
    ∀ (f : Nat) (st : State),
      evalStmt f ((augAssignStmt name value op).getD .passS) st =
        evalStmt f (.assign (.name name .store)
          (.binop k (.name name .load) value)) st := by
  have h1 : augAssignStmt name value op =
      some (.assign (.name name .store)
        (.binop k (.name name .load) value)) := by
    simp [augAssignStmt, h]
  refine ⟨h1, fun f st => ?_⟩
  rw [h1]
  rfl


/-- Witness for C7: `x += 2` desugars to `x = x + 2` and evaluates
identically. -/
theorem C7_augassign_desugars_witness :
    augAssignStmt "x" (.constInt 2) "+=" =
      some (.assign (.name "x" .store)
        (.binop .add (.name "x" .load) (.constInt 2))) ∧
    evalStmt 9 ((augAssignStmt "x" (.constInt 2) "+=").getD .passS)
        initState =
      evalStmt 9 (.assign (.name "x" .store)
        (.binop .add (.name "x" .load) (.constInt 2))) initState :=
  ⟨(C7_augassign_desugars "+=" .add "x" (.constInt 2) rfl).1,
   (C7_augassign_desugars "+=" .add "x" (.constInt 2) rfl).2 9 initState⟩

/-! ## C8 -/

lemma findB_setB (b : List (String × Value)) (n : String) (v : Value) :
    findB (setB b n v) n = some v := by
  induction b with
  | nil => simp [setB, findB]
  | cons p rest ih =>
    obtain ⟨k, w⟩ := p
    by_cases hk : k = n <;> simp [setB, findB, hk, ih]

/-- C8: an assignment whose target evaluates (store context) to a name and
whose value evaluates (load context) to a value produces no signal (result
is None) and writes the binding into the then-current namespace's own
bindings only: that namespace's record is updated by `setB` with its outer
link preserved, every other namespace of the heap is untouched, and the
binding is subsequently found in the current namespace's own bindings. -/
theorem C8_assign_writes_current_only (f : Nat) (target value : Expr)
    (st : State) (name : String) (st1 : State) (v : Value) (st2 : State)
    (ht : evalExpr f target st = (.ok (.str name), st1))
    (hv : evalExpr f value st1 = (.ok v, st2))
    (hcur : st2.current < st2.heap.length) :
    evalStmt (f + 1) (.assign target value) st =
      (.ok .pyNone, setVar st2 st2.current name v) ∧
    (setVar st2 st2.current name v).heap[st2.current]? =
      st2.heap[st2.current]?.map
        (fun ns => ⟨setB ns.bindings name v, ns.outer⟩) ∧
    (∀ j, j ≠ st2.current →
      (setVar st2 st2.current name v).heap[j]? = st2.heap[j]?) ∧
    findB ((setVar st2 st2.current name v).heap.getD st2.current
        ⟨[], Option.none⟩).bindings name = some v := by
  refine ⟨by simp [evalStmt, ht, hv], ?_, ?_, ?_⟩
  · simp only [setVar, nsGet_set_self]
    cases hg : st2.heap[st2.current]? with
    | none => simp
    | some ns => simp [nsGetD_eq_get?, hg]
  · intro j hj
    simp only [setVar]
    exact nsGet_set_other _ _ _ _ (Ne.symm hj)
  · cases hg : st2.heap[st2.current]? with
    | none =>
      rw [List.getElem?_eq_none_iff] at hg
      omega
    | some ns =>
      simp [setVar, nsGetD_eq_get?, nsGet_set_self, hg, findB_setB]

/-- Witness for C8: the assignment `x = 3` at the initial state. -/
theorem C8_assign_writes_current_only_witness :
    (evalStmt 4 (.assign (.name "x" .store) (.constInt 3)) initState =
      (.ok .pyNone, setVar initState initState.current "x" (.int 3))) ∧
    (setVar initState initState.current "x" (.int 3)).heap[initState.current]? =
      initState.heap[initState.current]?.map
        (fun ns => ⟨setB ns.bindings "x" (.int 3), ns.outer⟩) ∧
    (∀ j, j ≠ initState.current →
      (setVar initState initState.current "x" (.int 3)).heap[j]? =
        initState.heap[j]?) ∧
    findB ((setVar initState initState.current "x" (.int 3)).heap.getD
        initState.current ⟨[], Option.none⟩).bindings "x" =
      some (.int 3) :=
  C8_assign_writes_current_only 3 (.name "x" .store) (.constInt 3) initState
    "x" initState (.int 3) initState rfl rfl (by decide)

end TinyPy
